import Mathlib

/-!
Shallow embedding of the data-ingestion pipeline of the Us_Visa_Classification
repository, together with proofs about its claims.

Modelling conventions:
- A tabular record set (pandas DataFrame) is a list of rows, each row a list of
  (column name, value) pairs, matching the data model of the system: an ordered
  collection of rows, each a mapping from column name to value.
- Machine floats are modelled as rationals; the configured split fraction 0.2
  becomes 1/5.
- The filesystem is explicit state: a set of created directories and a list of
  (path, content) files. Saving threads the filesystem through every call.
- Exceptions (USvisaException and the errors it wraps, whose module is not part
  of the sources here) are modelled as the error side of Except String.
- The seeded shuffle performed by the sklearn train_test_split call is modelled
  by a deterministic key-sort shuffle: a linear congruential generator expands
  the seed into one key per row and the rows are stably sorted by key. Every
  property proved below holds for any deterministic permutation, which is all
  the source relies on (random_state=42 builds a fresh generator on each call).
-/

/-! ## Tabular record sets -/

/-- One row of a record set: a mapping from column name to value. -/
abbrev Row : Type := List (String × String)

/-- A record set: an ordered collection of rows. -/
abbrev RecordSet : Type := List Row

/-- The column labels of a record set: every key occurring in some row,
without duplicates. -/
def dfColumns (df : RecordSet) : List String :=
  ((df.map (fun r => r.map Prod.fst)).flatten).dedup

/-- pandas DataFrame.drop(columns=cols, errors=errs): removes the listed
columns from every row; when errs is not "ignore", a listed label missing
from the record set raises a KeyError. -/
def pandasDropColumns (cols : List String) (errs : String) (df : RecordSet) :
    Except String RecordSet :=
  if errs ≠ "ignore" ∧ cols.any (fun c => !((dfColumns df).contains c)) then
    .error "KeyError: labels not found in axis"
  else
    .ok (df.map (fun r => r.filter (fun kv => !(cols.contains kv.1))))

/-! ## Filesystem model and the Parquet data saver
(src/us_visa/data_access/stage_04_data_saver.py) -/

/-- Contents of a written file. The Parquet constructor records the columnar
binary layout: one entry per column label, carrying that column read down the
rows (a missing key in a row appears as none, as a null would). -/
inductive FileContent : Type
  | parquet (columns : List (String × List (Option String)))
deriving DecidableEq

/-- The column of a record set under one label, read down the rows. -/
def columnOf (df : RecordSet) (c : String) : List (Option String) :=
  df.map (fun r => (r.find? (fun kv => kv.1 == c)).map Prod.snd)

/-- DataFrame.to_parquet: the columnar binary encoding of a record set. -/
def parquetEncode (df : RecordSet) : FileContent :=
  .parquet ((dfColumns df).map (fun c => (c, columnOf df c)))

/-- The explicit filesystem: created directories and written files. -/
structure FileSystem : Type where
  dirs : List String
  files : List (String × FileContent)
deriving DecidableEq

/-- The empty filesystem. -/
def FileSystem.empty : FileSystem := ⟨[], []⟩

/-- The content stored at a path, if any. -/
def FileSystem.fileAt (fs : FileSystem) (p : String) : Option FileContent :=
  (fs.files.find? (fun kv => kv.1 == p)).map Prod.snd

/-- os.path.dirname for relative slash-separated paths: everything before the
last separator, empty when the path has no separator. Implemented on the
character list: strip the final component and its separator. -/
def dirname (p : String) : String :=
  String.mk ((((p.data.reverse).dropWhile (fun c => !(c == '/'))).drop 1).reverse)

/-- os.makedirs(d, exist_ok=True): records the directory as created. -/
def FileSystem.makedirs (fs : FileSystem) (d : String) : FileSystem :=
  { fs with dirs := d :: fs.dirs }

/-- Writing a file: replaces any previous content at the same path. -/
def FileSystem.writeFile (fs : FileSystem) (p : String) (c : FileContent) :
    FileSystem :=
  { fs with files := (p, c) :: fs.files.filter (fun kv => !(kv.1 == p)) }

/-- ParquetDataSaver.save: the pyarrow import is present at module scope, so
the guard never fires; the parent directory is created when the path has one,
and the record set is written at the path in columnar binary form. -/
def ParquetDataSaver.save (data : RecordSet) (file_path : String)
    (fs : FileSystem) : FileSystem :=
  let dir_path := dirname file_path
  let fs := if dir_path = "" then fs else fs.makedirs dir_path
  fs.writeFile file_path (parquetEncode data)

/-! ## Constants (src/us_visa/constants/init file) and configuration
(src/us_visa/entity/config_entity.py) -/

def PIPELINE_NAME : String := "usvisa"
def ARTIFACT_DIR : String := "artifacts"
def TRAIN_FILE_NAME : String := "train.parquet"
def TEST_FILE_NAME : String := "test.parquet"
def FILE_NAME : String := "raw.parquet"
def DATA_INGESTION_COLLECTION_NAME : String := "data"
def DATA_INGESTION_DIR_NAME : String := "data_ingestion"
def DATA_INGESTION_FEATURE_STORE_DIR : String := "feature_store"
def DATA_INGESTION_INGESTED_DIR : String := "ingested"

/-- DATA_INGESTION_TRAIN_TEST_SPLIT_RAT·IO = 0.2 (the source constant is so
named; the float literal is modelled as the rational 1/5, written with
Rat.divInt so that it evaluates inside the kernel). -/
def dataIngestionTrainTestSplitFraction : ℚ := Rat.divInt 1 5

/-- os.path.join for two relative components. -/
def osPathJoin (a b : String) : String :=
  if a = "" then b else a ++ "/" ++ b

/-- DataIngestionConfig: the frozen dataclass of the ingestion stage. The
last field is named train_test_split_rat·io in the source. -/
structure DataIngestionConfig : Type where
  data_ingestion_dir : String
  feature_store_file_path : String
  training_file_path : String
  testing_file_path : String
  train_test_split_fraction : ℚ
  collection_name : String
deriving DecidableEq

/-- The DataIngestionConfig defaults as a function of the artifact directory
of the enclosing TrainingPipelineConfig, mirroring the os.path.join calls of
the dataclass field defaults. -/
def dataIngestionConfigOf (artifact_dir : String) : DataIngestionConfig :=
  let data_ingestion_dir := osPathJoin artifact_dir DATA_INGESTION_DIR_NAME
  { data_ingestion_dir := data_ingestion_dir
    feature_store_file_path :=
      osPathJoin (osPathJoin data_ingestion_dir DATA_INGESTION_FEATURE_STORE_DIR) FILE_NAME
    training_file_path :=
      osPathJoin (osPathJoin data_ingestion_dir DATA_INGESTION_INGESTED_DIR) TRAIN_FILE_NAME
    testing_file_path :=
      osPathJoin (osPathJoin data_ingestion_dir DATA_INGESTION_INGESTED_DIR) TEST_FILE_NAME
    train_test_split_fraction := dataIngestionTrainTestSplitFraction
    collection_name := DATA_INGESTION_COLLECTION_NAME }

/-- DataIngestionConfig(): the configuration every run of the program
constructs, with every field at its default. -/
def DataIngestionConfig.default : DataIngestionConfig :=
  dataIngestionConfigOf ARTIFACT_DIR

/-- DataIngestionArtifact (src/us_visa/entity/artifact_entity.py). -/
structure DataIngestionArtifact : Type where
  raw_file_path : String
  train_file_path : String
  test_file_path : String
deriving DecidableEq

/-! ## The seeded shuffle and sklearn train_test_split -/

/-- One step of a linear congruential generator (Numerical Recipes
constants), used to expand the fixed seed into per-row sort keys. -/
def lcgNext (s : Nat) : Nat := (1664525 * s + 1013904223) % 4294967296

/-- The first n states of the generator started from the seed. -/
def lcgStream (s : Nat) : Nat → List Nat
  | 0 => []
  | n + 1 => lcgNext s :: lcgStream (lcgNext s) n

/-- The deterministic seeded shuffle: tag each row with a generator key and
stably sort by key. This stands for the permutation numpy derives from
RandomState(random_state) inside train_test_split. -/
def shuffleWithSeed (seed : Nat) (l : RecordSet) : RecordSet :=
  ((l.zip (lcgStream seed l.length)).insertionSort
      (fun a b => a.2 ≤ b.2)).map Prod.fst

/-- The number of test rows sklearn takes: the ceiling of n * test_size,
computed on the numerator and denominator of the fraction so that it
evaluates inside the kernel. -/
def sklearnCeil (n : ℕ) (r : ℚ) : ℕ :=
  (((n : ℤ) * r.num + (r.den : ℤ) - 1).ediv (r.den : ℤ)).toNat

/-- sklearn.model_selection.train_test_split with a float test_size and an
integer random_state, returning (train, test). Validation follows
_validate_shuffle_split: test_size must lie strictly between 0 and 1, the
test partition takes the ceiling of n * test_size rows, and a run whose
train partition would be empty raises a ValueError. -/
def train_test_split (df : RecordSet) (test_size : ℚ) (random_state : Nat) :
    Except String (RecordSet × RecordSet) :=
  let n := df.length
  if test_size ≤ 0 ∨ 1 ≤ test_size then
    .error "ValueError: test_size should be a float in the (0, 1) range"
  else
    let n_test := sklearnCeil n test_size
    let n_train := n - n_test
    if n_train = 0 then
      .error "ValueError: the resulting train set will be empty"
    else
      let shuffled := shuffleWithSeed random_state df
      .ok (shuffled.drop n_test, shuffled.take n_test)

/-! ## The ingestion orchestrator
(src/us_visa/components/data_ingestion.py) -/

/-- The column drop performed at the top of split_data_as_train_test: the
drop_columns list read from the schema file is applied with errors="ignore",
and skipped entirely when empty. -/
def appliedDrop (drop_columns : List String) (df : RecordSet) :
    Except String RecordSet :=
  if drop_columns.isEmpty then .ok df
  else pandasDropColumns drop_columns "ignore" df

/-- DataIngestion.export_data_into_feature_store. The Data Access Service
result (the cleaned record set) is the df argument; an empty result raises
before any save, otherwise the full set is saved to the feature-store path
and returned. -/
def export_data_into_feature_store (cfg : DataIngestionConfig)
    (df : RecordSet) (fs : FileSystem) :
    FileSystem × Except String RecordSet :=
  if df.isEmpty then
    (fs, .error "USvisaException: Extracted dataframe is empty.")
  else
    (ParquetDataSaver.save df cfg.feature_store_file_path fs, .ok df)

/-- DataIngestion.split_data_as_train_test: drop the schema columns, split
with the configured fraction and random_state=42, save train then test. -/
def split_data_as_train_test (cfg : DataIngestionConfig)
    (drop_columns : List String) (df : RecordSet) (fs : FileSystem) :
    FileSystem × Except String Unit :=
  match appliedDrop drop_columns df with
  | .error e => (fs, .error e)
  | .ok df =>
    match train_test_split df cfg.train_test_split_fraction 42 with
    | .error e => (fs, .error e)
    | .ok (train_set, test_set) =>
      let fs := ParquetDataSaver.save train_set cfg.training_file_path fs
      let fs := ParquetDataSaver.save test_set cfg.testing_file_path fs
      (fs, .ok ())

/-- DataIngestion.initiate_data_ingestion: export to the feature store, split
into train/test, and emit the artifact of the three configured paths. Any
error aborts the run with the filesystem left exactly as the completed steps
wrote it. -/
def initiate_data_ingestion (cfg : DataIngestionConfig)
    (drop_columns : List String) (df : RecordSet) (fs : FileSystem) :
    FileSystem × Except String DataIngestionArtifact :=
  match export_data_into_feature_store cfg df fs with
  | (fs, .error e) => (fs, .error e)
  | (fs, .ok df) =>
    match split_data_as_train_test cfg drop_columns df fs with
    | (fs, .error e) => (fs, .error e)
    | (fs, .ok _) =>
      (fs, .ok { raw_file_path := cfg.feature_store_file_path
                 train_file_path := cfg.training_file_path
                 test_file_path := cfg.testing_file_path })

/-! ## The MongoDB client
(src/us_visa/configuration/database_connection.py) -/

/-- The process-wide picture of MongoDBClient: the class attribute
_shared_client, a count of pymongo.MongoClient constructions (each one would
open a fresh connection), and the _client attribute of every instance,
indexed by an instance identifier. Clients are named by the order of their
construction. -/
structure MongoProcessState : Type where
  shared_client : Option Nat
  connections_opened : Nat
  instance_client : Nat → Option Nat

/-- Process start: no shared client, no connection, no instance connected. -/
def MongoProcessState.init : MongoProcessState :=
  { shared_client := none, connections_opened := 0,
    instance_client := fun _ => none }

/-- MongoDBClient.connect called on instance i: when the class attribute is
unset, construct a new client and store it there; either way the instance
then points at the shared client. -/
def MongoDBClient.connect (s : MongoProcessState) (i : Nat) :
    MongoProcessState :=
  match s.shared_client with
  | none =>
    let c := s.connections_opened
    { shared_client := some c
      connections_opened := c + 1
      instance_client := fun j => if j = i then some c else s.instance_client j }
  | some c =>
    { s with
      instance_client := fun j => if j = i then some c else s.instance_client j }

/-- MongoDBClient.get_database called on instance i: lazily connect when the
instance has no client yet, and return the client the database handle is
drawn from. -/
def MongoDBClient.get_database (s : MongoProcessState) (i : Nat) :
    MongoProcessState × Option Nat :=
  match s.instance_client i with
  | some c => (s, some c)
  | none =>
    let s := MongoDBClient.connect s i
    (s, s.instance_client i)

/-- The calls a process can make on the connector, tagged by instance. -/
inductive MongoOp : Type
  | connect (i : Nat)
  | get_database (i : Nat)

/-- The state effect of one connector call. -/
def runMongoOp (s : MongoProcessState) : MongoOp → MongoProcessState
  | .connect i => MongoDBClient.connect s i
  | .get_database i => (MongoDBClient.get_database s i).1

/-- The state after a sequence of connector calls. -/
def runMongoOps (s : MongoProcessState) (ops : List MongoOp) :
    MongoProcessState :=
  ops.foldl runMongoOp s

/-- Invariant tying every piece of the connector state to the shared client:
before the first connection nothing is set and nothing was opened; once the
shared client exists it is client 0 and exactly one connection was opened;
an instance only ever points at the shared client. -/
def MongoInv (s : MongoProcessState) : Prop :=
  (s.shared_client = none →
      s.connections_opened = 0 ∧ ∀ i, s.instance_client i = none) ∧
  (∀ c, s.shared_client = some c → s.connections_opened = 1 ∧ c = 0) ∧
  (∀ i c, s.instance_client i = some c → s.shared_client = some c)

/-! ## Helper lemmas -/

theorem lcgStream_length (s n : Nat) : (lcgStream s n).length = n := by
  induction n generalizing s with
  | zero => rfl
  | succ n ih => simp [lcgStream, ih]

theorem shuffleWithSeed_perm (seed : Nat) (l : RecordSet) :
    (shuffleWithSeed seed l).Perm l := by
  unfold shuffleWithSeed
  have h1 := List.perm_insertionSort (fun a b : Row × Nat => a.2 ≤ b.2)
      (l.zip (lcgStream seed l.length))
  have h2 := h1.map Prod.fst
  rwa [List.map_fst_zip l _ (by rw [lcgStream_length])] at h2

theorem shuffleWithSeed_length (seed : Nat) (l : RecordSet) :
    (shuffleWithSeed seed l).length = l.length :=
  (shuffleWithSeed_perm seed l).length_eq

theorem find?_filter_of_ne (p q : String) (h : q ≠ p)
    (l : List (String × FileContent)) :
    (l.filter (fun kv => !(kv.1 == p))).find? (fun kv => kv.1 == q) =
      l.find? (fun kv => kv.1 == q) := by
  induction l with
  | nil => rfl
  | cons kv l ih =>
    by_cases hkv : kv.1 = p
    · have hb1 : (kv.1 == p) = true := beq_iff_eq.mpr hkv
      have hb2 : (kv.1 == q) = false := by
        rw [hkv]
        exact beq_eq_false_iff_ne.mpr (Ne.symm h)
      simp only [List.filter_cons, hb1, List.find?_cons, hb2, Bool.not_true,
        if_false, ite_false, Bool.false_eq_true]
      exact ih
    · have hb1 : (kv.1 == p) = false := beq_eq_false_iff_ne.mpr hkv
      by_cases hq : kv.1 = q
      · have hb2 : (kv.1 == q) = true := beq_iff_eq.mpr hq
        simp only [List.filter_cons, hb1, List.find?_cons, hb2, Bool.not_false,
          if_true, ite_true]
      · have hb2 : (kv.1 == q) = false := beq_eq_false_iff_ne.mpr hq
        simp only [List.filter_cons, hb1, List.find?_cons, hb2, Bool.not_false,
          if_true, ite_true, Bool.false_eq_true]
        exact ih

theorem fileAt_writeFile_self (fs : FileSystem) (p : String) (c : FileContent) :
    (fs.writeFile p c).fileAt p = some c := by
  simp [FileSystem.writeFile, FileSystem.fileAt]

theorem fileAt_writeFile_ne (fs : FileSystem) (p : String) (c : FileContent)
    (q : String) (h : q ≠ p) :
    (fs.writeFile p c).fileAt q = fs.fileAt q := by
  have hpq : (p == q) = false := by
    simp
    exact fun hc => h hc.symm
  simp only [FileSystem.writeFile, FileSystem.fileAt, List.find?_cons, hpq]
  rw [find?_filter_of_ne p q h]

theorem fileAt_makedirs (fs : FileSystem) (d q : String) :
    (fs.makedirs d).fileAt q = fs.fileAt q := rfl

theorem save_fileAt_self (data : RecordSet) (p : String) (fs : FileSystem) :
    (ParquetDataSaver.save data p fs).fileAt p = some (parquetEncode data) := by
  simp only [ParquetDataSaver.save]
  exact fileAt_writeFile_self _ _ _

theorem save_fileAt_ne (data : RecordSet) (p : String) (fs : FileSystem)
    (q : String) (h : q ≠ p) :
    (ParquetDataSaver.save data p fs).fileAt q = fs.fileAt q := by
  simp only [ParquetDataSaver.save]
  rw [fileAt_writeFile_ne _ _ _ _ h]
  by_cases hd : dirname p = "" <;> simp [hd, fileAt_makedirs]

theorem save_dirs_mem (data : RecordSet) (p : String) (fs : FileSystem)
    (h : dirname p ≠ "") :
    dirname p ∈ (ParquetDataSaver.save data p fs).dirs := by
  simp only [ParquetDataSaver.save, if_neg h]
  exact List.mem_cons_self _ _

theorem pandasDropColumns_ignore (cols : List String) (df : RecordSet) :
    pandasDropColumns cols "ignore" df =
      .ok (df.map (fun r => r.filter (fun kv => !(cols.contains kv.1)))) := by
  unfold pandasDropColumns
  rw [if_neg]
  intro hc
  exact hc.1 rfl

theorem appliedDrop_eq_ok (cols : List String) (df : RecordSet) :
    appliedDrop cols df =
      .ok (df.map (fun r => r.filter (fun kv => !(cols.contains kv.1)))) := by
  unfold appliedDrop
  by_cases hc : cols.isEmpty
  · rw [if_pos hc]
    have hnil : cols = [] := List.isEmpty_iff.mp hc
    subst hnil
    simp
  · rw [if_neg hc]
    exact pandasDropColumns_ignore cols df

theorem appliedDrop_length (cols : List String) (df out : RecordSet)
    (h : appliedDrop cols df = .ok out) : out.length = df.length := by
  rw [appliedDrop_eq_ok] at h
  cases h
  simp

theorem sklearnCeil_eq_ceil (n : ℕ) (r : ℚ) :
    sklearnCeil n r = ⌈(n : ℚ) * r⌉₊ := by
  have hdpos : (0 : ℤ) < (r.den : ℤ) := Int.natCast_pos.mpr r.pos
  set a : ℤ := (n : ℤ) * r.num with ha
  set d : ℤ := (r.den : ℤ) with hdd
  set e : ℤ := (a + d - 1).ediv d with he
  have hmod : d * e + (a + d - 1).emod d = a + d - 1 :=
    Int.ediv_add_emod (a + d - 1) d
  have hm0 : 0 ≤ (a + d - 1).emod d := Int.emod_nonneg _ (by omega)
  have hm1 : (a + d - 1).emod d < d := Int.emod_lt_of_pos _ hdpos
  have hv : (n : ℚ) * r = (a : ℚ) / (d : ℚ) := by
    rw [ha, hdd]
    push_cast
    rw [mul_div_assoc]
    congr 1
    exact (Rat.num_div_den r).symm
  have hceil : ⌈(n : ℚ) * r⌉ = e := by
    rw [Int.ceil_eq_iff]
    constructor
    · rw [hv, lt_div_iff₀ (by exact_mod_cast hdpos)]
      have hz : (e - 1) * d < a := by nlinarith [hmod, hm0, hm1]
      exact_mod_cast hz
    · rw [hv, div_le_iff₀ (by exact_mod_cast hdpos)]
      have hz : a ≤ e * d := by nlinarith [hmod, hm0, hm1]
      exact_mod_cast hz
  have : sklearnCeil n r = e.toNat := rfl
  rw [this, ← hceil, Int.ceil_toNat]

theorem sub_ceil_eq_floor (n : ℕ) (r : ℚ) (h0 : 0 ≤ r) (h1 : r ≤ 1) :
    ((n - ⌈(n : ℚ) * r⌉₊ : ℕ) : ℤ) = ⌊(n : ℚ) * (1 - r)⌋ := by
  have hle : ⌈(n : ℚ) * r⌉₊ ≤ n := by
    rw [Nat.ceil_le]
    calc (n : ℚ) * r ≤ (n : ℚ) * 1 := by
          exact mul_le_mul_of_nonneg_left h1 (by positivity)
    _ = (n : ℚ) := mul_one _
  have hnn : (0 : ℚ) ≤ (n : ℚ) * r := mul_nonneg (by positivity) h0
  rw [Nat.cast_sub hle]
  have h2 : ((⌈(n : ℚ) * r⌉₊ : ℕ) : ℤ) = ⌈(n : ℚ) * r⌉ := by
    rw [← Int.ceil_toNat, Int.toNat_of_nonneg (Int.ceil_nonneg hnn)]
  rw [h2]
  have h3 : (n : ℚ) * (1 - r) = ((n : ℤ) : ℚ) + (-((n : ℚ) * r)) := by
    push_cast
    ring
  rw [h3, Int.floor_int_add, Int.floor_neg]
  ring

theorem train_test_split_eq_ok (df : RecordSet) (r : ℚ) (seed : Nat)
    (h0 : 0 < r) (h1 : r < 1) (h2 : sklearnCeil df.length r < df.length) :
    train_test_split df r seed =
      .ok ((shuffleWithSeed seed df).drop (sklearnCeil df.length r),
           (shuffleWithSeed seed df).take (sklearnCeil df.length r)) := by
  simp only [train_test_split]
  rw [if_neg (by push_neg; exact ⟨h0, h1⟩), if_neg (by omega)]

theorem split_data_ok_dest (cfg : DataIngestionConfig) (dcols : List String)
    (df : RecordSet) (fs fs' : FileSystem)
    (h : split_data_as_train_test cfg dcols df fs = (fs', .ok ())) :
    ∃ dropped train_set test_set,
      appliedDrop dcols df = .ok dropped ∧
      train_test_split dropped cfg.train_test_split_fraction 42 =
        .ok (train_set, test_set) ∧
      fs' = ParquetDataSaver.save test_set cfg.testing_file_path
              (ParquetDataSaver.save train_set cfg.training_file_path fs) := by
  unfold split_data_as_train_test at h
  rcases hd : appliedDrop dcols df with e | dropped
  · rw [hd] at h
    simp at h
  · rw [hd] at h
    dsimp only at h
    rcases hs : train_test_split dropped cfg.train_test_split_fraction 42
        with e | ⟨tr, te⟩
    · rw [hs] at h
      simp at h
    · rw [hs] at h
      simp only [Prod.mk.injEq] at h
      exact ⟨dropped, tr, te, rfl, hs, h.1.symm⟩

theorem initiate_ok_dest (cfg : DataIngestionConfig) (dcols : List String)
    (df : RecordSet) (fs fs' : FileSystem) (art : DataIngestionArtifact)
    (h : initiate_data_ingestion cfg dcols df fs = (fs', .ok art)) :
    df.isEmpty = false ∧
    art = ⟨cfg.feature_store_file_path, cfg.training_file_path,
           cfg.testing_file_path⟩ ∧
    ∃ dropped train_set test_set,
      appliedDrop dcols df = .ok dropped ∧
      train_test_split dropped cfg.train_test_split_fraction 42 =
        .ok (train_set, test_set) ∧
      fs' = ParquetDataSaver.save test_set cfg.testing_file_path
              (ParquetDataSaver.save train_set cfg.training_file_path
                (ParquetDataSaver.save df cfg.feature_store_file_path fs)) := by
  unfold initiate_data_ingestion export_data_into_feature_store at h
  by_cases hdf : df.isEmpty
  · rw [if_pos hdf] at h
    simp at h
  · rw [if_neg hdf] at h
    dsimp only at h
    rcases hs : split_data_as_train_test cfg dcols df
        (ParquetDataSaver.save df cfg.feature_store_file_path fs) with ⟨fs2, r⟩
    rcases r with e | u
    · rw [hs] at h
      simp at h
    · rw [hs] at h
      simp only [Prod.mk.injEq, Except.ok.injEq] at h
      obtain ⟨dropped, tr, te, h1, h2, h3⟩ :=
        split_data_ok_dest cfg dcols df _ fs2 (by rw [hs])
      refine ⟨Bool.eq_false_iff.mpr hdf, ?_, dropped, tr, te, h1, h2, ?_⟩
      · exact h.2.symm
      · rw [← h.1, h3]

/-! ## Claim theorems -/

/-- C1: when the cleaned record set returned by the Data Access Service has
zero rows, initiate_data_ingestion raises the ingestion failure and returns
the filesystem untouched: neither the feature-store file nor the train/test
files are written. -/
theorem initiate_data_ingestion_empty_input_writes_nothing
    (cfg : DataIngestionConfig) (dcols : List String) (df : RecordSet)
    (fs : FileSystem) (h : df.length = 0) :
    initiate_data_ingestion cfg dcols df fs =
      (fs, .error "USvisaException: Extracted dataframe is empty.") := by
  have hnil : df = [] := List.length_eq_zero.mp h
  subst hnil
  rfl

/-- Witness for C1 at a concrete empty record set. -/
theorem initiate_data_ingestion_empty_input_writes_nothing_witness :
    ([] : RecordSet).length = 0 ∧
    initiate_data_ingestion DataIngestionConfig.default ["case_id"] []
        FileSystem.empty =
      (FileSystem.empty, .error "USvisaException: Extracted dataframe is empty.") :=
  ⟨rfl, initiate_data_ingestion_empty_input_writes_nothing
    DataIngestionConfig.default ["case_id"] [] FileSystem.empty rfl⟩

/-- C3: determinism of the split step: two runs with the same seed and the
same input produce identical train and test partitions. The embedding makes
the sklearn call a pure function of (input, fraction, seed); this matches
the source, which passes random_state=42 as an integer so every call
rebuilds the same generator state and no state survives between calls. -/
theorem train_test_split_deterministic (df1 df2 : RecordSet) (r : ℚ)
    (seed1 seed2 : Nat) (hdf : df1 = df2) (hseed : seed1 = seed2) :
    train_test_split df1 r seed1 = train_test_split df2 r seed2 := by
  subst hdf
  subst hseed
  rfl

/-- Witness for C3 at a concrete two-row record set and the fixed seed 42. -/
theorem train_test_split_deterministic_witness :
    train_test_split [[("a", "1")], [("a", "2")]]
        dataIngestionTrainTestSplitFraction 42 =
      train_test_split [[("a", "1")], [("a", "2")]]
        dataIngestionTrainTestSplitFraction 42 :=
  train_test_split_deterministic _ _ _ _ _ rfl rfl

/-- C4: the column pruning of split_data_as_train_test removes exactly the
listed columns that are present and never errors: with errors="ignore" a
listed name absent from the data is a no-op, so a drop list made entirely of
absent names returns the data unchanged. -/
theorem column_pruning_removes_present_ignores_missing
    (dcols : List String) (df : RecordSet) :
    appliedDrop dcols df =
      .ok (df.map (fun r => r.filter (fun kv => !(dcols.contains kv.1)))) ∧
    ((∀ c ∈ dcols, c ∉ dfColumns df) → appliedDrop dcols df = .ok df) := by
  refine ⟨appliedDrop_eq_ok dcols df, fun hmiss => ?_⟩
  have hmap : df.map (fun r => r.filter (fun kv => !(dcols.contains kv.1))) = df := by
    have hrow : ∀ r ∈ df, r.filter (fun kv => !(dcols.contains kv.1)) = r := by
      intro r hr
      apply List.filter_eq_self.mpr
      intro kv hkv
      have hcol : kv.1 ∈ dfColumns df := by
        unfold dfColumns
        rw [List.mem_dedup, List.mem_flatten]
        exact ⟨r.map Prod.fst, List.mem_map_of_mem _ hr,
          List.mem_map_of_mem _ hkv⟩
      have hnot : kv.1 ∉ dcols := fun hc => hmiss kv.1 hc hcol
      simp [hnot]
    calc df.map (fun r => r.filter (fun kv => !(dcols.contains kv.1)))
        = df.map id := List.map_congr_left hrow
      _ = df := List.map_id df
  rw [appliedDrop_eq_ok, hmap]

/-- Witness for C4: a drop list naming only a column absent from the data
leaves the record set unchanged and raises no error. -/
theorem column_pruning_removes_present_ignores_missing_witness :
    (∀ c ∈ ["unit_of_wage"], c ∉ dfColumns [[("case_status", "Y")]]) ∧
    appliedDrop ["unit_of_wage"] [[("case_status", "Y")]] =
      .ok [[("case_status", "Y")]] := by
  have hm : ∀ c ∈ ["unit_of_wage"], c ∉ dfColumns [[("case_status", "Y")]] := by
    decide
  exact ⟨hm, (column_pruning_removes_present_ignores_missing
    ["unit_of_wage"] [[("case_status", "Y")]]).2 hm⟩

/-- C6: ParquetDataSaver.save creates the missing parent directory of the
path when it has one, writes the record set at the path in columnar binary
form, overwrites whatever was there, and touches no other path. -/
theorem parquet_saver_creates_dir_writes_columnar_overwrites
    (data : RecordSet) (file_path : String) (fs : FileSystem) :
    (ParquetDataSaver.save data file_path fs).fileAt file_path =
      some (parquetEncode data) ∧
    (dirname file_path ≠ "" →
      dirname file_path ∈ (ParquetDataSaver.save data file_path fs).dirs) ∧
    (∀ q, q ≠ file_path →
      (ParquetDataSaver.save data file_path fs).fileAt q = fs.fileAt q) :=
  ⟨save_fileAt_self data file_path fs,
   fun h => save_dirs_mem data file_path fs h,
   fun q hq => save_fileAt_ne data file_path fs q hq⟩

/-- Witness for C6: saving over an existing file at dir/file.parquet. -/
theorem parquet_saver_creates_dir_writes_columnar_overwrites_witness :
    (ParquetDataSaver.save [[("a", "1")]] "dir/file.parquet"
        ⟨[], [("dir/file.parquet", parquetEncode [])]⟩).fileAt
        "dir/file.parquet" = some (parquetEncode [[("a", "1")]]) ∧
    dirname "dir/file.parquet" ∈
      (ParquetDataSaver.save [[("a", "1")]] "dir/file.parquet"
        ⟨[], [("dir/file.parquet", parquetEncode [])]⟩).dirs ∧
    (ParquetDataSaver.save [[("a", "1")]] "dir/file.parquet"
        ⟨[], [("dir/file.parquet", parquetEncode [])]⟩).fileAt "other" =
      FileSystem.fileAt ⟨[], [("dir/file.parquet", parquetEncode [])]⟩ "other" :=
  ⟨(parquet_saver_creates_dir_writes_columnar_overwrites _ _ _).1,
   (parquet_saver_creates_dir_writes_columnar_overwrites _ _ _).2.1 (by decide),
   (parquet_saver_creates_dir_writes_columnar_overwrites _ _ _).2.2 "other"
     (by decide)⟩

/-- C7: every ingestion configuration the program constructs (the dataclass
defaults, for any artifact directory) has its train/test split fraction
strictly between 0 and 1. -/
theorem config_split_fraction_strictly_between_zero_one (artifact_dir : String) :
    0 < (dataIngestionConfigOf artifact_dir).train_test_split_fraction ∧
    (dataIngestionConfigOf artifact_dir).train_test_split_fraction < 1 := by
  have hfield : (dataIngestionConfigOf artifact_dir).train_test_split_fraction =
      dataIngestionTrainTestSplitFraction := rfl
  rw [hfield]
  constructor <;> decide

/-- Counterexample to C2 as stated: at a one-row record set with the
configured fraction 0.2 the split step produces no partitions at all —
sklearn raises because the train partition would be empty — so the split
does not output floor(1 * 0.8) = 0 train rows and 1 test row. -/
theorem split_counts_counterexample :
    train_test_split [[("a", "1")]] dataIngestionTrainTestSplitFraction 42 =
      .error "ValueError: the resulting train set will be empty" := by
  rfl

/-- C2 (amended): for a fraction strictly between 0 and 1, whenever the
train partition would be non-empty (ceil(N * fraction) < N), the split
produces exactly floor(N * (1 - fraction)) train rows, the remaining
N - floor(N * (1 - fraction)) rows in test, and train ++ test is a
permutation — multiset equality — of the input. -/
theorem split_counts_and_multiset_union (df : RecordSet) (r : ℚ) (seed : Nat)
    (h0 : 0 < r) (h1 : r < 1)
    (h2 : sklearnCeil df.length r < df.length) :
    ∃ train_set test_set,
      train_test_split df r seed = .ok (train_set, test_set) ∧
      (train_set.length : ℤ) = ⌊(df.length : ℚ) * (1 - r)⌋ ∧
      (test_set.length : ℤ) = (df.length : ℤ) - ⌊(df.length : ℚ) * (1 - r)⌋ ∧
      (train_set ++ test_set).Perm df := by
  refine ⟨_, _, train_test_split_eq_ok df r seed h0 h1 h2, ?_, ?_, ?_⟩
  · rw [List.length_drop, shuffleWithSeed_length, sklearnCeil_eq_ceil]
    exact sub_ceil_eq_floor df.length r (le_of_lt h0) (le_of_lt h1)
  · rw [List.length_take, shuffleWithSeed_length, min_eq_left (le_of_lt h2),
      sklearnCeil_eq_ceil]
    have hfl := sub_ceil_eq_floor df.length r (le_of_lt h0) (le_of_lt h1)
    have hle : ⌈(df.length : ℚ) * r⌉₊ ≤ df.length := by
      rw [← sklearnCeil_eq_ceil]
      exact le_of_lt h2
    omega
  · have hperm := shuffleWithSeed_perm seed df
    have hsplit : ((shuffleWithSeed seed df).drop (sklearnCeil df.length r) ++
        (shuffleWithSeed seed df).take (sklearnCeil df.length r)).Perm
          (shuffleWithSeed seed df) := by
      conv_rhs =>
        rw [← List.take_append_drop (sklearnCeil df.length r)
          (shuffleWithSeed seed df)]
      exact List.perm_append_comm
    exact hsplit.trans hperm

/-- Witness for C2 (amended) at a concrete ten-row record set with the
configured fraction: two test rows, eight train rows. -/
theorem split_counts_and_multiset_union_witness :
    0 < dataIngestionTrainTestSplitFraction ∧
    dataIngestionTrainTestSplitFraction < 1 ∧
    sklearnCeil ([[("a", "1")], [("a", "2")], [("a", "3")], [("a", "4")],
        [("a", "5")], [("a", "6")], [("a", "7")], [("a", "8")], [("a", "9")],
        [("a", "10")]] : RecordSet).length dataIngestionTrainTestSplitFraction <
      ([[("a", "1")], [("a", "2")], [("a", "3")], [("a", "4")], [("a", "5")],
        [("a", "6")], [("a", "7")], [("a", "8")], [("a", "9")],
        [("a", "10")]] : RecordSet).length ∧
    ∃ train_set test_set,
      train_test_split [[("a", "1")], [("a", "2")], [("a", "3")], [("a", "4")],
          [("a", "5")], [("a", "6")], [("a", "7")], [("a", "8")], [("a", "9")],
          [("a", "10")]] dataIngestionTrainTestSplitFraction 42 =
        .ok (train_set, test_set) ∧
      (train_set.length : ℤ) =
        ⌊(([[("a", "1")], [("a", "2")], [("a", "3")], [("a", "4")],
          [("a", "5")], [("a", "6")], [("a", "7")], [("a", "8")], [("a", "9")],
          [("a", "10")]] : RecordSet).length : ℚ) *
          (1 - dataIngestionTrainTestSplitFraction)⌋ ∧
      (test_set.length : ℤ) =
        (([[("a", "1")], [("a", "2")], [("a", "3")], [("a", "4")],
          [("a", "5")], [("a", "6")], [("a", "7")], [("a", "8")], [("a", "9")],
          [("a", "10")]] : RecordSet).length : ℤ) -
        ⌊(([[("a", "1")], [("a", "2")], [("a", "3")], [("a", "4")],
          [("a", "5")], [("a", "6")], [("a", "7")], [("a", "8")], [("a", "9")],
          [("a", "10")]] : RecordSet).length : ℚ) *
          (1 - dataIngestionTrainTestSplitFraction)⌋ ∧
      (train_set ++ test_set).Perm
        [[("a", "1")], [("a", "2")], [("a", "3")], [("a", "4")], [("a", "5")],
         [("a", "6")], [("a", "7")], [("a", "8")], [("a", "9")], [("a", "10")]] :=
  ⟨by decide, by decide, by decide,
   split_counts_and_multiset_union _ dataIngestionTrainTestSplitFraction 42
     (by decide) (by decide) (by decide)⟩

/-- C5: on every successful run (with the three configured paths pairwise
distinct, as they are in the program's configuration) the feature-store file
holds the full cleaned record set — including any columns named in
drop_columns — while the train and test files are built from the pruned
data: pruning affects only the partitions that are split and saved next. -/
theorem snapshot_saved_before_pruning (cfg : DataIngestionConfig)
    (dcols : List String) (df : RecordSet) (fs fs' : FileSystem)
    (art : DataIngestionArtifact)
    (hne1 : cfg.training_file_path ≠ cfg.feature_store_file_path)
    (hne2 : cfg.testing_file_path ≠ cfg.feature_store_file_path)
    (hne3 : cfg.training_file_path ≠ cfg.testing_file_path)
    (h : initiate_data_ingestion cfg dcols df fs = (fs', .ok art)) :
    fs'.fileAt cfg.feature_store_file_path = some (parquetEncode df) ∧
    ∃ train_set test_set,
      train_test_split
          (df.map (fun r => r.filter (fun kv => !(dcols.contains kv.1))))
          cfg.train_test_split_fraction 42 = .ok (train_set, test_set) ∧
      fs'.fileAt cfg.training_file_path = some (parquetEncode train_set) ∧
      fs'.fileAt cfg.testing_file_path = some (parquetEncode test_set) := by
  obtain ⟨hdf, hart, dropped, tr, te, h1, h2, h3⟩ :=
    initiate_ok_dest cfg dcols df fs fs' art h
  rw [appliedDrop_eq_ok] at h1
  have hdropped :
      dropped = df.map (fun r => r.filter (fun kv => !(dcols.contains kv.1))) :=
    (Except.ok.inj h1).symm
  subst h3
  refine ⟨?_, tr, te, ?_, ?_, ?_⟩
  · rw [save_fileAt_ne _ _ _ _ (Ne.symm hne2), save_fileAt_ne _ _ _ _ (Ne.symm hne1),
      save_fileAt_self]
  · rw [← hdropped]
    exact h2
  · rw [save_fileAt_ne _ _ _ _ hne3, save_fileAt_self]
  · rw [save_fileAt_self]

/-- Witness for C5: a concrete successful run over five rows carrying a
continent column that the schema drops; the snapshot keeps the column. -/
theorem snapshot_saved_before_pruning_witness :
    ((initiate_data_ingestion DataIngestionConfig.default ["continent"]
        [[("a", "1"), ("continent", "Asia")], [("a", "2"), ("continent", "EU")],
         [("a", "3"), ("continent", "Asia")], [("a", "4"), ("continent", "NA")],
         [("a", "5"), ("continent", "SA")]] FileSystem.empty).1).fileAt
      DataIngestionConfig.default.feature_store_file_path =
    some (parquetEncode
      [[("a", "1"), ("continent", "Asia")], [("a", "2"), ("continent", "EU")],
       [("a", "3"), ("continent", "Asia")], [("a", "4"), ("continent", "NA")],
       [("a", "5"), ("continent", "SA")]]) :=
  (snapshot_saved_before_pruning DataIngestionConfig.default ["continent"]
    [[("a", "1"), ("continent", "Asia")], [("a", "2"), ("continent", "EU")],
     [("a", "3"), ("continent", "Asia")], [("a", "4"), ("continent", "NA")],
     [("a", "5"), ("continent", "SA")]] FileSystem.empty _ _
    (by decide) (by decide) (by decide) rfl).1

theorem string_append_left_cancel (a b c : String) (h : a ++ b = a ++ c) :
    b = c := by
  have hd := congrArg String.data h
  rw [String.data_append, String.data_append] at hd
  exact String.ext (List.append_cancel_left hd)

theorem append_ne_empty_of_right (a b : String) (hb : b ≠ "") : a ++ b ≠ "" := by
  intro hc
  apply hb
  have hd := congrArg String.data hc
  rw [String.data_append] at hd
  exact String.ext (List.append_eq_nil.mp hd).2

theorem configOf_paths (d : String) (hd : d ≠ "") :
    (dataIngestionConfigOf d).feature_store_file_path =
      d ++ "/data_ingestion/feature_store/raw.parquet" ∧
    (dataIngestionConfigOf d).training_file_path =
      d ++ "/data_ingestion/ingested/train.parquet" ∧
    (dataIngestionConfigOf d).testing_file_path =
      d ++ "/data_ingestion/ingested/test.parquet" := by
  have h1 : osPathJoin d "data_ingestion" = d ++ "/" ++ "data_ingestion" :=
    if_neg hd
  have hne : d ++ "/" ++ "data_ingestion" ≠ "" :=
    append_ne_empty_of_right _ _ (by decide)
  have h2 : osPathJoin (d ++ "/" ++ "data_ingestion") "feature_store" =
      (d ++ "/" ++ "data_ingestion") ++ "/" ++ "feature_store" := if_neg hne
  have h3 : osPathJoin (d ++ "/" ++ "data_ingestion") "ingested" =
      (d ++ "/" ++ "data_ingestion") ++ "/" ++ "ingested" := if_neg hne
  have h4 : osPathJoin ((d ++ "/" ++ "data_ingestion") ++ "/" ++ "feature_store")
      "raw.parquet" =
      ((d ++ "/" ++ "data_ingestion") ++ "/" ++ "feature_store") ++ "/" ++
        "raw.parquet" :=
    if_neg (append_ne_empty_of_right _ _ (by decide))
  have h5 : osPathJoin ((d ++ "/" ++ "data_ingestion") ++ "/" ++ "ingested")
      "train.parquet" =
      ((d ++ "/" ++ "data_ingestion") ++ "/" ++ "ingested") ++ "/" ++
        "train.parquet" :=
    if_neg (append_ne_empty_of_right _ _ (by decide))
  have h6 : osPathJoin ((d ++ "/" ++ "data_ingestion") ++ "/" ++ "ingested")
      "test.parquet" =
      ((d ++ "/" ++ "data_ingestion") ++ "/" ++ "ingested") ++ "/" ++
        "test.parquet" :=
    if_neg (append_ne_empty_of_right _ _ (by decide))
  refine ⟨?_, ?_, ?_⟩
  · show osPathJoin (osPathJoin (osPathJoin d "data_ingestion") "feature_store")
      "raw.parquet" = _
    rw [h1, h2, h4]
    simp only [String.append_assoc]
    congr 1
  · show osPathJoin (osPathJoin (osPathJoin d "data_ingestion") "ingested")
      "train.parquet" = _
    rw [h1, h3, h5]
    simp only [String.append_assoc]
    congr 1
  · show osPathJoin (osPathJoin (osPathJoin d "data_ingestion") "ingested")
      "test.parquet" = _
    rw [h1, h3, h6]
    simp only [String.append_assoc]
    congr 1

/-- C8: for any artifact directory, the configured paths are exactly the
three-layer layout under it, and the artifact a successful run returns
carries those paths, each of which the run has written. -/
theorem artifact_paths_deterministic_and_saved (d : String) (hd : d ≠ "")
    (dcols : List String) (df : RecordSet) (fs fs' : FileSystem)
    (art : DataIngestionArtifact)
    (h : initiate_data_ingestion (dataIngestionConfigOf d) dcols df fs =
      (fs', .ok art)) :
    art.raw_file_path = d ++ "/data_ingestion/feature_store/raw.parquet" ∧
    art.train_file_path = d ++ "/data_ingestion/ingested/train.parquet" ∧
    art.test_file_path = d ++ "/data_ingestion/ingested/test.parquet" ∧
    (fs'.fileAt art.raw_file_path).isSome = true ∧
    (fs'.fileAt art.train_file_path).isSome = true ∧
    (fs'.fileAt art.test_file_path).isSome = true := by
  obtain ⟨hdf, hart, dropped, tr, te, h1, h2, h3⟩ :=
    initiate_ok_dest (dataIngestionConfigOf d) dcols df fs fs' art h
  obtain ⟨hp1, hp2, hp3⟩ := configOf_paths d hd
  have hd1 : (dataIngestionConfigOf d).training_file_path ≠
      (dataIngestionConfigOf d).feature_store_file_path := by
    rw [hp1, hp2]
    intro hc
    exact absurd (string_append_left_cancel _ _ _ hc) (by decide)
  have hd2 : (dataIngestionConfigOf d).testing_file_path ≠
      (dataIngestionConfigOf d).feature_store_file_path := by
    rw [hp1, hp3]
    intro hc
    exact absurd (string_append_left_cancel _ _ _ hc) (by decide)
  have hd3 : (dataIngestionConfigOf d).training_file_path ≠
      (dataIngestionConfigOf d).testing_file_path := by
    rw [hp2, hp3]
    intro hc
    exact absurd (string_append_left_cancel _ _ _ hc) (by decide)
  subst h3
  subst hart
  refine ⟨hp1, hp2, hp3, ?_, ?_, ?_⟩
  · show ((ParquetDataSaver.save te (dataIngestionConfigOf d).testing_file_path
      (ParquetDataSaver.save tr (dataIngestionConfigOf d).training_file_path
        (ParquetDataSaver.save df (dataIngestionConfigOf d).feature_store_file_path
          fs))).fileAt (dataIngestionConfigOf d).feature_store_file_path).isSome = true
    rw [save_fileAt_ne _ _ _ _ (Ne.symm hd2), save_fileAt_ne _ _ _ _ (Ne.symm hd1),
      save_fileAt_self]
    rfl
  · show ((ParquetDataSaver.save te (dataIngestionConfigOf d).testing_file_path
      (ParquetDataSaver.save tr (dataIngestionConfigOf d).training_file_path
        (ParquetDataSaver.save df (dataIngestionConfigOf d).feature_store_file_path
          fs))).fileAt (dataIngestionConfigOf d).training_file_path).isSome = true
    rw [save_fileAt_ne _ _ _ _ hd3, save_fileAt_self]
    rfl
  · show ((ParquetDataSaver.save te (dataIngestionConfigOf d).testing_file_path
      (ParquetDataSaver.save tr (dataIngestionConfigOf d).training_file_path
        (ParquetDataSaver.save df (dataIngestionConfigOf d).feature_store_file_path
          fs))).fileAt (dataIngestionConfigOf d).testing_file_path).isSome = true
    rw [save_fileAt_self]
    rfl

/-- Witness for C8: a concrete successful run under the default artifact
directory of the program. -/
theorem artifact_paths_deterministic_and_saved_witness :
    (DataIngestionArtifact.mk
        (DataIngestionConfig.default.feature_store_file_path)
        (DataIngestionConfig.default.training_file_path)
        (DataIngestionConfig.default.testing_file_path)).raw_file_path =
      "artifacts" ++ "/data_ingestion/feature_store/raw.parquet" ∧
    (DataIngestionArtifact.mk
        (DataIngestionConfig.default.feature_store_file_path)
        (DataIngestionConfig.default.training_file_path)
        (DataIngestionConfig.default.testing_file_path)).train_file_path =
      "artifacts" ++ "/data_ingestion/ingested/train.parquet" :=
  have happ := artifact_paths_deterministic_and_saved "artifacts" (by decide) []
    [[("a", "1")], [("a", "2")], [("a", "3")], [("a", "4")], [("a", "5")]]
    FileSystem.empty _ _ rfl
  ⟨happ.1, happ.2.1⟩

theorem mongoInv_init : MongoInv MongoProcessState.init := by
  refine ⟨fun _ => ⟨rfl, fun _ => rfl⟩, fun c hc => ?_, fun i c hc => ?_⟩
  · exact absurd hc (by simp [MongoProcessState.init])
  · exact absurd hc (by simp [MongoProcessState.init])

theorem connect_eq_none (s : MongoProcessState) (i : Nat)
    (h : s.shared_client = none) :
    MongoDBClient.connect s i =
      { shared_client := some s.connections_opened
        connections_opened := s.connections_opened + 1
        instance_client := fun j =>
          if j = i then some s.connections_opened else s.instance_client j } := by
  unfold MongoDBClient.connect
  rw [h]

theorem connect_eq_some (s : MongoProcessState) (i : Nat) (c : Nat)
    (h : s.shared_client = some c) :
    MongoDBClient.connect s i =
      { s with instance_client := fun j =>
          if j = i then some c else s.instance_client j } := by
  unfold MongoDBClient.connect
  rw [h]

theorem get_database_state_some (s : MongoProcessState) (i : Nat) (c2 : Nat)
    (h : s.instance_client i = some c2) :
    (MongoDBClient.get_database s i).1 = s := by
  unfold MongoDBClient.get_database
  rw [h]

theorem get_database_state_none (s : MongoProcessState) (i : Nat)
    (h : s.instance_client i = none) :
    (MongoDBClient.get_database s i).1 = MongoDBClient.connect s i := by
  unfold MongoDBClient.get_database
  rw [h]

theorem connect_shared_stable (s : MongoProcessState) (i : Nat) (c : Nat)
    (h : s.shared_client = some c) :
    (MongoDBClient.connect s i).shared_client = some c := by
  rw [connect_eq_some s i c h]
  exact h

theorem runMongoOp_shared_stable (s : MongoProcessState) (op : MongoOp)
    (c : Nat) (h : s.shared_client = some c) :
    (runMongoOp s op).shared_client = some c := by
  cases op with
  | connect i => exact connect_shared_stable s i c h
  | get_database i =>
    show (MongoDBClient.get_database s i).1.shared_client = some c
    cases hic : s.instance_client i with
    | some c2 =>
      rw [get_database_state_some s i c2 hic]
      exact h
    | none =>
      rw [get_database_state_none s i hic]
      exact connect_shared_stable s i c h

theorem mongoInv_connect (s : MongoProcessState) (i : Nat)
    (hinv : MongoInv s) : MongoInv (MongoDBClient.connect s i) := by
  obtain ⟨hnone, hsome, hinst⟩ := hinv
  cases hsc : s.shared_client with
  | none =>
    obtain ⟨hop, hic⟩ := hnone hsc
    rw [connect_eq_none s i hsc]
    refine ⟨fun hc => absurd hc (by simp), fun c hc => ?_, fun j c hc => ?_⟩
    · have hcc : s.connections_opened = c := Option.some.inj hc
      exact ⟨by rw [hop], by rw [← hcc, hop]⟩
    · dsimp only at hc ⊢
      by_cases hj : j = i
      · rw [if_pos hj] at hc
        exact hc
      · rw [if_neg hj, hic j] at hc
        exact absurd hc (by simp)
  | some c0 =>
    rw [connect_eq_some s i c0 hsc]
    refine ⟨fun hc => ?_, fun c hc => ?_, fun j c hc => ?_⟩
    · rw [hsc] at hc
      exact Option.noConfusion hc
    · exact hsome c hc
    · dsimp only at hc ⊢
      by_cases hj : j = i
      · rw [if_pos hj] at hc
        exact hsc.trans (congrArg some (Option.some.inj hc))
      · rw [if_neg hj] at hc
        exact hinst j c hc

theorem mongoInv_step (s : MongoProcessState) (op : MongoOp)
    (hinv : MongoInv s) : MongoInv (runMongoOp s op) := by
  cases op with
  | connect i => exact mongoInv_connect s i hinv
  | get_database i =>
    show MongoInv (MongoDBClient.get_database s i).1
    cases hic : s.instance_client i with
    | some c2 =>
      rw [get_database_state_some s i c2 hic]
      exact hinv
    | none =>
      rw [get_database_state_none s i hic]
      exact mongoInv_connect s i hinv

theorem mongoInv_runOps (s : MongoProcessState) (ops : List MongoOp)
    (hinv : MongoInv s) : MongoInv (runMongoOps s ops) := by
  induction ops generalizing s with
  | nil => exact hinv
  | cons op ops ih => exact ih (runMongoOp s op) (mongoInv_step s op hinv)

theorem runMongoOps_shared_stable (s : MongoProcessState) (ops : List MongoOp)
    (c : Nat) (h : s.shared_client = some c) :
    (runMongoOps s ops).shared_client = some c := by
  induction ops generalizing s with
  | nil => exact h
  | cons op ops ih =>
    exact ih (runMongoOp s op) (runMongoOp_shared_stable s op c h)

/-- C9: the connector establishes a connection exactly once per process.
Once some sequence of connect or get_database calls has set the shared
client, any further calls leave it unchanged, the process has opened exactly
one connection — and still exactly one after the further calls — and every
instance that holds a client holds that same shared one. -/
theorem mongo_client_connects_exactly_once (ops more : List MongoOp) (c : Nat)
    (h : (runMongoOps MongoProcessState.init ops).shared_client = some c) :
    (runMongoOps MongoProcessState.init (ops ++ more)).shared_client = some c ∧
    (runMongoOps MongoProcessState.init ops).connections_opened = 1 ∧
    (runMongoOps MongoProcessState.init (ops ++ more)).connections_opened = 1 ∧
    (∀ i c', (runMongoOps MongoProcessState.init ops).instance_client i =
      some c' → c' = c) := by
  have hinv := mongoInv_runOps MongoProcessState.init ops mongoInv_init
  have happ : runMongoOps MongoProcessState.init (ops ++ more) =
      runMongoOps (runMongoOps MongoProcessState.init ops) more :=
    List.foldl_append _ _ _ _
  have hstable :
      (runMongoOps MongoProcessState.init (ops ++ more)).shared_client =
        some c := by
    rw [happ]
    exact runMongoOps_shared_stable _ more c h
  refine ⟨hstable, (hinv.2.1 c h).1, ?_, ?_⟩
  · have hinv2 := mongoInv_runOps MongoProcessState.init (ops ++ more)
      mongoInv_init
    exact (hinv2.2.1 c hstable).1
  · intro i c' hc
    have hsh := hinv.2.2 i c' hc
    rw [h] at hsh
    exact (Option.some.inj hsh).symm

/-- Witness for C9: one connect on instance 0 followed by a lazily connecting
get_database on instance 1. -/
theorem mongo_client_connects_exactly_once_witness :
    (runMongoOps MongoProcessState.init
      ([MongoOp.connect 0] ++ [MongoOp.get_database 1])).shared_client =
        some 0 ∧
    (runMongoOps MongoProcessState.init
      [MongoOp.connect 0]).connections_opened = 1 ∧
    (runMongoOps MongoProcessState.init
      ([MongoOp.connect 0] ++ [MongoOp.get_database 1])).connections_opened = 1 ∧
    (∀ i c', (runMongoOps MongoProcessState.init
      [MongoOp.connect 0]).instance_client i = some c' → c' = 0) :=
  mongo_client_connects_exactly_once [MongoOp.connect 0]
    [MongoOp.get_database 1] 0 rfl

/-- C10: on a one-row cleaned record set with the configured fraction 0.2
(and the program's distinct paths), the run fails in the split step because
the train partition would be empty, after the feature-store snapshot is
already on disk: the snapshot file holds the data while the train and test
paths are exactly as they were before the run. -/
theorem one_row_fails_after_snapshot (cfg : DataIngestionConfig)
    (dcols : List String) (df : RecordSet) (fs : FileSystem)
    (hr : cfg.train_test_split_fraction = dataIngestionTrainTestSplitFraction)
    (h1 : df.length = 1)
    (hne1 : cfg.training_file_path ≠ cfg.feature_store_file_path)
    (hne2 : cfg.testing_file_path ≠ cfg.feature_store_file_path) :
    initiate_data_ingestion cfg dcols df fs =
      (ParquetDataSaver.save df cfg.feature_store_file_path fs,
       .error "ValueError: the resulting train set will be empty") ∧
    (ParquetDataSaver.save df cfg.feature_store_file_path fs).fileAt
      cfg.feature_store_file_path = some (parquetEncode df) ∧
    (ParquetDataSaver.save df cfg.feature_store_file_path fs).fileAt
      cfg.training_file_path = fs.fileAt cfg.training_file_path ∧
    (ParquetDataSaver.save df cfg.feature_store_file_path fs).fileAt
      cfg.testing_file_path = fs.fileAt cfg.testing_file_path := by
  obtain ⟨row, hdf⟩ := List.length_eq_one.mp h1
  subst hdf
  have hsplit : train_test_split
      ([row].map (fun r => r.filter (fun kv => !(dcols.contains kv.1))))
      cfg.train_test_split_fraction 42 =
      .error "ValueError: the resulting train set will be empty" := by
    rw [hr]
    simp only [train_test_split, List.length_map, List.length_cons,
      List.length_nil]
    rw [if_neg (by decide), if_pos (by decide)]
  have hmain : initiate_data_ingestion cfg dcols [row] fs =
      (ParquetDataSaver.save [row] cfg.feature_store_file_path fs,
       .error "ValueError: the resulting train set will be empty") := by
    unfold initiate_data_ingestion export_data_into_feature_store
      split_data_as_train_test
    simp only [List.isEmpty_cons, Bool.false_eq_true, if_false]
    rw [appliedDrop_eq_ok]
    dsimp only
    rw [hsplit]
  exact ⟨hmain, save_fileAt_self _ _ _,
    save_fileAt_ne _ _ _ _ hne1, save_fileAt_ne _ _ _ _ hne2⟩

/-- Witness for C10 at a concrete one-row record set, the default
configuration and an empty filesystem. -/
theorem one_row_fails_after_snapshot_witness :
    initiate_data_ingestion DataIngestionConfig.default ["continent"]
      [[("a", "1")]] FileSystem.empty =
      (ParquetDataSaver.save [[("a", "1")]]
        DataIngestionConfig.default.feature_store_file_path FileSystem.empty,
       .error "ValueError: the resulting train set will be empty") ∧
    (ParquetDataSaver.save [[("a", "1")]]
      DataIngestionConfig.default.feature_store_file_path
      FileSystem.empty).fileAt
        DataIngestionConfig.default.feature_store_file_path =
      some (parquetEncode [[("a", "1")]]) ∧
    (ParquetDataSaver.save [[("a", "1")]]
      DataIngestionConfig.default.feature_store_file_path
      FileSystem.empty).fileAt DataIngestionConfig.default.training_file_path =
      FileSystem.empty.fileAt DataIngestionConfig.default.training_file_path ∧
    (ParquetDataSaver.save [[("a", "1")]]
      DataIngestionConfig.default.feature_store_file_path
      FileSystem.empty).fileAt DataIngestionConfig.default.testing_file_path =
      FileSystem.empty.fileAt DataIngestionConfig.default.testing_file_path :=
  one_row_fails_after_snapshot DataIngestionConfig.default ["continent"]
    [[("a", "1")]] FileSystem.empty rfl rfl (by decide) (by decide)
